import Mathlib

/-!
Verification of the terminal session pool (`TerminalManager`) and the
per-command execution state machine (`TerminalProcess`) of this repository.

Strings are modelled as `List Char` (one entry per code point).  JavaScript
regex character classes over UTF-16 code units translate to predicates on
`Char.toNat`: every code point at or above `0x7F` is matched by the class
`[\x7F-￿]`, because code points above `0xFFFF` are encoded in JavaScript
as a surrogate pair whose two units both lie in that range.
-/

set_option autoImplicit false

/-- ECMAScript whitespace, as used by `String.prototype.trim`, `trimEnd` and
the regex class `\s`: tab through carriage return, space, NBSP, Ogham space,
the Unicode space separators, line/paragraph separators, narrow no-break
space, medium mathematical space, ideographic space, and the BOM. -/
def isJsWhitespace (c : Char) : Bool :=
  c.toNat = 0x09 || c.toNat = 0x0A || c.toNat = 0x0B || c.toNat = 0x0C ||
  c.toNat = 0x0D || c.toNat = 0x20 || c.toNat = 0xA0 || c.toNat = 0x1680 ||
  (0x2000 ≤ c.toNat && c.toNat ≤ 0x200A) || c.toNat = 0x2028 ||
  c.toNat = 0x2029 || c.toNat = 0x202F || c.toNat = 0x205F ||
  c.toNat = 0x3000 || c.toNat = 0xFEFF

/-- JavaScript `String.prototype.trimStart`. -/
def jsTrimStart (s : List Char) : List Char :=
  s.dropWhile isJsWhitespace

/-- JavaScript `String.prototype.trimEnd`. -/
def jsTrimEnd (s : List Char) : List Char :=
  (s.reverse.dropWhile isJsWhitespace).reverse

/-- JavaScript `String.prototype.trim`. -/
def jsTrim (s : List Char) : List Char :=
  jsTrimEnd (jsTrimStart s)

/-- The regex `LINE_ENDINGS = /\r\n/g` applied via `.replace(..., "\n")`:
every (non-overlapping, leftmost-first) `"\r\n"` becomes `"\n"`. -/
def crlfToLf : List Char → List Char
  | '\r' :: '\n' :: rest => '\n' :: crlfToLf rest
  | c :: rest => c :: crlfToLf rest
  | [] => []

/-- The regex `STANDALONE_CR = /\r/g` applied via `.replace(..., "")`. -/
def dropCr (s : List Char) : List Char :=
  s.filter (fun c => c ≠ '\r')

/-- Membership in the regex class `NON_ASCII_CONTROL =
/[\x00-\x09\x0B-\x1F\x7F-￿]/` (see the module comment for why the last
range covers every code point at or above `0x7F`). -/
def isStrippedControl (c : Char) : Bool :=
  c.toNat ≤ 0x09 || (0x0B ≤ c.toNat && c.toNat ≤ 0x1F) || 0x7F ≤ c.toNat

/-- `.replace(regexes.NON_ASCII_CONTROL, "")`. -/
def stripControl (s : List Char) : List Char :=
  s.filter (fun c => !(isStrippedControl c))

/-- `sanitizeOutput` from `TerminalProcess.ts`: normalize `\r\n` to `\n`,
drop remaining `\r`, remove every `NON_ASCII_CONTROL` character, trim. -/
def sanitizeOutput (s : List Char) : List Char :=
  jsTrim (stripControl (dropCr (crlfToLf s)))

/-- Membership in the regex class `[%$#>]` of `PROMPT_CHARS`. -/
def isPromptChar (c : Char) : Bool :=
  c = '%' || c = '$' || c = '#' || c = '>'

/-- `.replace(regexes.PROMPT_CHARS, "")` with `PROMPT_CHARS = /[%$#>]\s*$/`
(not global): the pattern matches at the leftmost index `i` with `s[i]` a
prompt character and everything after `i` whitespace; since prompt characters
are not whitespace, the only possible such `i` is the one right before the
trailing-whitespace run, and the match (which extends to the end of the
string) is removed. -/
def dropPromptSuffix (s : List Char) : List Char :=
  match s.reverse.dropWhile isJsWhitespace with
  | c :: rest => if isPromptChar c then rest.reverse else s
  | [] => s

/-- The per-line transformation of `sanitizeLines`. -/
def sanitizeLine (l : List Char) : List Char :=
  jsTrim (stripControl (dropPromptSuffix l))

/-- `sanitizeLines` from `TerminalProcess.ts`: per line remove a trailing
prompt character, strip control characters, trim, and drop lines that end up
empty. -/
def sanitizeLines (ls : List (List Char)) : List (List Char) :=
  (ls.map sanitizeLine).filter (fun l => !l.isEmpty)

/-- JavaScript `String.prototype.split("\n")`: always returns at least one
(possibly empty) piece. -/
def splitOnNl : List Char → List (List Char)
  | [] => [[]]
  | c :: rest =>
    if c = '\n' then [] :: splitOnNl rest
    else
      match splitOnNl rest with
      | [] => [[c]]
      | h :: t => (c :: h) :: t

/-- `TerminalProcess.sanitizeRemainingBuffer`: split on `"\n"`, apply
`sanitizeLines`, re-join with `"\n"`, and `trimEnd`. -/
def sanitizeRemainingBuffer (s : List Char) : List Char :=
  jsTrimEnd (List.intercalate ['\n'] (sanitizeLines (splitOnNl s)))

/-- Whether `pat` is an initial segment of `s`. -/
def startsWith : List Char → List Char → Bool
  | _, [] => true
  | [], _ :: _ => false
  | c :: s, p :: ps => c = p && startsWith s ps

/-- JavaScript `String.prototype.includes`: `containsSub s pat` holds when
`pat` occurs contiguously inside `s`. -/
def containsSub : List Char → List Char → Bool
  | s, pat =>
    startsWith s pat ||
      match s with
      | [] => false
      | _ :: t => containsSub t pat

/-- The `strip-ansi` library (an external npm dependency) restricted to text
containing no escape introducer, where it acts as the identity.  The
execution model below is parametric in the ANSI stripper; this is the
instance used for concrete runs on escape-free text. -/
def ansiId : List Char → List Char := fun s => s

/-- `PROCESS_HOT_TIMEOUT_NORMAL`. -/
def PROCESS_HOT_TIMEOUT_NORMAL : Nat := 2000

/-- `PROCESS_HOT_TIMEOUT_COMPILING`. -/
def PROCESS_HOT_TIMEOUT_COMPILING : Nat := 15000

/-- The mutable fields of class `TerminalProcess` (the `waitForShellIntegration`
flag is unused by every operation modelled here and is omitted). -/
structure TerminalProcess where
  buffer : List Char
  cooldownTimeout : Nat
  fullOutput : List Char
  isListening : Bool
  lastActivityTime : Nat
  lastRetrievedIndex : Nat
deriving DecidableEq

/-- Field initializers of `TerminalProcess`: empty buffers, normal cooldown,
listening, no recorded activity. -/
def TerminalProcess.new : TerminalProcess :=
  ⟨[], PROCESS_HOT_TIMEOUT_NORMAL, [], true, 0, 0⟩

/-- Events emitted on the `TerminalProcess` event emitter. -/
inductive TerminalEvent where
  | line (text : List Char)
  | completed
  | contSignal
  | errSignal (msg : List Char)
deriving DecidableEq

/-- The `compilingMarkers` list of `processOutput`. -/
def compilingMarkers : List (List Char) :=
  [("compiling".data), ("building".data), ("bundling".data),
   ("transpiling".data), ("generating".data), ("starting".data)]

/-- The `markerNullifiers` list of `processOutput`. -/
def markerNullifiers : List (List Char) :=
  [("compiled".data), ("success".data), ("finish".data), ("complete".data),
   ("succeed".data), ("done".data), ("end".data), ("stop".data),
   ("exit".data), ("terminate".data), ("error".data), ("fail".data)]

/-- The `isCompiling` test of `processOutput`: the lowercased line contains a
compiling marker and no nullifier. -/
def isCompilingLine (data : List Char) : Bool :=
  compilingMarkers.any (fun m => containsSub (data.map Char.toLower) m) &&
    !(markerNullifiers.any (fun m => containsSub (data.map Char.toLower) m))

/-- `TerminalProcess.updateHotState`, with `Date.now()` passed as `now`. -/
def TerminalProcess.updateHotState (p : TerminalProcess) (now : Nat)
    (isCompiling : Bool) : TerminalProcess :=
  { p with lastActivityTime := now,
           cooldownTimeout := if isCompiling then PROCESS_HOT_TIMEOUT_COMPILING
                              else PROCESS_HOT_TIMEOUT_NORMAL }

/-- `TerminalProcess.isHot` evaluated at time `now`. -/
def TerminalProcess.isHotAt (p : TerminalProcess) (now : Nat) : Bool :=
  if p.lastActivityTime = 0 then false
  else now - p.lastActivityTime < p.cooldownTimeout

/-- `TerminalProcess.processOutput`, returning the updated state and the
events it emits: do nothing for whitespace-only data; otherwise append the
sanitized text plus `"\n"` to `fullOutput` when it is non-empty (emitting it
as a `line` event while listening), then update the hot state. -/
def TerminalProcess.processOutput (p : TerminalProcess) (now : Nat)
    (data : List Char) : TerminalProcess × List TerminalEvent :=
  if jsTrim data = [] then (p, [])
  else
    let so := sanitizeOutput data
    let p1 := if so = [] then p
              else { p with fullOutput := p.fullOutput ++ so ++ ['\n'] }
    let evs := if so = [] then ([] : List TerminalEvent)
               else if p.isListening then [TerminalEvent.line so] else []
    (p1.updateHotState now (isCompilingLine data), evs)

/-- `TerminalProcess.getUnretrievedOutput`: slice `fullOutput` from
`lastRetrievedIndex`, advance the index to the end, and return the slice
passed through `sanitizeRemainingBuffer`. -/
def TerminalProcess.getUnretrievedOutput (p : TerminalProcess) :
    List Char × TerminalProcess :=
  (sanitizeRemainingBuffer (p.fullOutput.drop p.lastRetrievedIndex),
   { p with lastRetrievedIndex := p.fullOutput.length })

/-- `TerminalProcess.emitRemainingBufferIfListening`: when the buffer is
non-empty and the process is listening, emit the sanitized remaining buffer
(if non-empty) as a `line` event, clear the buffer, and set
`lastRetrievedIndex` to the end of `fullOutput`. -/
def TerminalProcess.emitRemainingBufferIfListening (p : TerminalProcess) :
    TerminalProcess × List TerminalEvent :=
  if !p.buffer.isEmpty && p.isListening then
    ({ p with buffer := [], lastRetrievedIndex := p.fullOutput.length },
     if !(sanitizeRemainingBuffer p.buffer).isEmpty then
       [TerminalEvent.line (sanitizeRemainingBuffer p.buffer)]
     else [])
  else (p, [])

/-- The `continue` method of `TerminalProcess`: flush the remaining buffer if
listening, stop listening, drop the `line` subscriptions (external listener
state, not part of this model), and emit the `continue` event. -/
def TerminalProcess.contOp (p : TerminalProcess) :
    TerminalProcess × List TerminalEvent :=
  let r := p.emitRemainingBufferIfListening
  ({ r.1 with isListening := false }, r.2 ++ [TerminalEvent.contSignal])

/-- The local state of the data handler installed by `TerminalProcess.run`:
the closed-over `outputStarted` flag and `outputBuffer` string, the process
object, and whether `outputHandler.dispose()` has run (after which the
terminal no longer invokes the handler). -/
structure RunState where
  proc : TerminalProcess
  outputStarted : Bool
  outputBuffer : List Char
  disposed : Bool
deriving DecidableEq

/-- Handler state at the start of `run`: capture not started, empty buffer. -/
def RunState.init (p : TerminalProcess) : RunState :=
  ⟨p, false, [], false⟩

/-- Process a list of complete lines in order through `processOutput`,
concatenating the emitted events. -/
def runLines (now : Nat) (p : TerminalProcess) :
    List (List Char) → TerminalProcess × List TerminalEvent
  | [] => (p, [])
  | l :: rest =>
    let r1 := p.processOutput now l
    let r2 := runLines now r1.1 rest
    (r2.1, r1.2 ++ r2.2)

/-- The `onDidWriteData` callback of `TerminalProcess.run`, parametric in the
external `strip-ansi` function `ansi` and the per-invocation `startM`/`endM`
marker strings.  A chunk containing the start marker sets `outputStarted` and
is otherwise ignored; a chunk containing the end marker processes the
buffered text (if any), disposes the handler, and emits `completed` then
`continue`; while started, the chunk is appended to the buffer, complete
lines are processed, and the final fragment stays buffered. -/
def handleData (ansi : List Char → List Char) (now : Nat)
    (startM endM : List Char) (st : RunState) (data : List Char) :
    RunState × List TerminalEvent :=
  if st.disposed then (st, [])
  else
    let d := ansi data
    if containsSub d startM then ({ st with outputStarted := true }, [])
    else if containsSub d endM then
      let r := if st.outputBuffer.isEmpty
               then (st.proc, ([] : List TerminalEvent))
               else st.proc.processOutput now st.outputBuffer
      ({ st with proc := r.1, outputStarted := false, disposed := true },
       r.2 ++ [TerminalEvent.completed, TerminalEvent.contSignal])
    else if st.outputStarted then
      let buf := st.outputBuffer ++ d
      let lines := splitOnNl buf
      if lines.length > 1 then
        let r := runLines now st.proc lines.dropLast
        ({ st with proc := r.1, outputBuffer := lines.getLastD [] }, r.2)
      else ({ st with outputBuffer := buf }, [])
    else (st, [])

/-- Deliver a sequence of data chunks to the handler, concatenating the
emitted events. -/
def processChunks (ansi : List Char → List Char) (now : Nat)
    (startM endM : List Char) :
    RunState → List (List Char) → RunState × List TerminalEvent
  | st, [] => (st, [])
  | st, c :: cs =>
    let r1 := handleData ansi now startM endM st c
    let r2 := processChunks ansi now startM endM r1.1 cs
    (r2.1, r1.2 ++ r2.2)

/-- Character-at-a-time reformulation of the capturing branch of the handler:
a newline processes the pending line, any other character is appended to the
pending fragment.  Used to show that chunk boundaries between markers do not
matter. -/
def absorb (now : Nat) :
    TerminalProcess → List Char → List Char →
    TerminalProcess × List Char × List TerminalEvent
  | p, buf, [] => (p, buf, [])
  | p, buf, c :: rest =>
    if c = '\n' then
      let r1 := p.processOutput now buf
      let r2 := absorb now r1.1 [] rest
      (r2.1, r2.2.1, r1.2 ++ r2.2.2)
    else absorb now p (buf ++ [c]) rest

/-- `TerminalInfo` from the external `TerminalRegistry`, restricted to the
fields the pool reads and writes (`id`, `busy`, `lastCommand`); the VS Code
terminal handle itself stays outside the model. -/
structure TerminalInfo where
  id : Nat
  busy : Bool
  lastCommand : List Char
deriving DecidableEq

/-- Lookup in the pool's `Map` of processes, modelled as an association
list. -/
def lookupAssoc : List (Nat × TerminalProcess) → Nat → Option TerminalProcess
  | [], _ => none
  | (k, v) :: rest, id => if k = id then some v else lookupAssoc rest id

/-- `Map.prototype.set`: replace the value at an existing key, else append. -/
def setAssoc : List (Nat × TerminalProcess) → Nat → TerminalProcess →
    List (Nat × TerminalProcess)
  | [], id, p => [(id, p)]
  | (k, v) :: rest, id, p =>
    if k = id then (id, p) :: rest else (k, v) :: setAssoc rest id p

/-- The state of class `TerminalManager`: the id-to-process map and the set
of owned terminal ids (kept in insertion order).  The `disposables` array
holds external VS Code subscriptions and is outside the model. -/
structure TerminalManager where
  processes : List (Nat × TerminalProcess)
  terminalIds : List Nat
deriving DecidableEq

/-- `TerminalManager.disposeAll`: clear `terminalIds` and `processes` (the
VS Code disposables are also disposed, an external effect). -/
def TerminalManager.disposeAll (m : TerminalManager) : TerminalManager :=
  { m with processes := [], terminalIds := [] }

/-- `TerminalManager.getTerminals`: among owned ids, look each up in the
registry (modelled as a partial map `registry`), keep those whose `busy` flag
equals the argument, and return their `id` and `lastCommand`. -/
def TerminalManager.getTerminals (m : TerminalManager)
    (registry : Nat → Option TerminalInfo) (busy : Bool) :
    List (Nat × List Char) :=
  ((m.terminalIds.filterMap registry).filter (fun t => t.busy == busy)).map
    (fun t => (t.id, t.lastCommand))

/-- `TerminalManager.getUnretrievedOutput`: empty for un-owned ids or ids
with no recorded process; otherwise delegate to the process (whose index
advances, modelled by writing the updated process back into the map). -/
def TerminalManager.getUnretrievedOutput (m : TerminalManager) (id : Nat) :
    List Char × TerminalManager :=
  if id ∈ m.terminalIds then
    match lookupAssoc m.processes id with
    | some p =>
      let r := p.getUnretrievedOutput
      (r.1, { m with processes := setAssoc m.processes id r.2 })
    | none => ([], m)
  else ([], m)

/-- `TerminalManager.isProcessHot` evaluated at time `now`. -/
def TerminalManager.isProcessHot (m : TerminalManager) (id : Nat)
    (now : Nat) : Bool :=
  match lookupAssoc m.processes id with
  | some p => p.isHotAt now
  | none => false

/-- The `Error` message built by the 30 000 ms timer of `runCommand`. -/
def timeoutMessage (cmd : List Char) : List Char :=
  ("Command execution timeout: ".data) ++ cmd

/-- Settlement of the promise built by `runCommand`: fulfilled by `resolve()`
or rejected by `reject(error)` with the error's message. -/
inductive Settlement where
  | fulfilled
  | rejected (msg : List Char)
deriving DecidableEq

/-- The handler wiring created by one `runCommand` call: the (shared,
mutable) `TerminalInfo`, the submitted command, the consumed-flags of the
three `once` listeners, the promise settlement (at most one, first wins),
and whether the 30 000 ms timer is still pending. -/
structure ExecContext where
  info : TerminalInfo
  command : List Char
  completedConsumed : Bool
  continueConsumed : Bool
  errorConsumed : Bool
  settled : Option Settlement
  timerActive : Bool
deriving DecidableEq

/-- `TerminalManager.runCommand`: mark the session busy, record the command,
store a fresh `TerminalProcess` in the map, and install the `completed` /
`continue` / `error` listeners plus the 30 000 ms timer (the wiring is
returned as an `ExecContext`; `run` itself starts from
`RunState.init TerminalProcess.new`). -/
def TerminalManager.runCommand (m : TerminalManager) (info : TerminalInfo)
    (cmd : List Char) : TerminalManager × ExecContext :=
  ({ m with processes := setAssoc m.processes info.id TerminalProcess.new },
   { info := { info with busy := true, lastCommand := cmd },
     command := cmd,
     completedConsumed := false, continueConsumed := false,
     errorConsumed := false, settled := none, timerActive := true })

/-- Reaction of the `runCommand` wiring to one event emitted by the process:
the `once("completed")` listener clears `busy`; the `once("continue")`
listener cancels the timer and resolves; the `once("error")` listener cancels
the timer and rejects; a promise settles only once. -/
def dispatchExec (c : ExecContext) (ev : TerminalEvent) : ExecContext :=
  match ev with
  | TerminalEvent.line _ => c
  | TerminalEvent.completed =>
    if c.completedConsumed then c
    else { c with completedConsumed := true,
                  info := { c.info with busy := false } }
  | TerminalEvent.contSignal =>
    if c.continueConsumed then c
    else { c with continueConsumed := true, timerActive := false,
                  settled := match c.settled with
                             | none => some Settlement.fulfilled
                             | s => s }
  | TerminalEvent.errSignal msg =>
    if c.errorConsumed then c
    else { c with errorConsumed := true, timerActive := false,
                  settled := match c.settled with
                             | none => some (Settlement.rejected msg)
                             | s => s }

/-- Deliver a list of events to the wiring in order. -/
def dispatchEvents (c : ExecContext) (evs : List TerminalEvent) : ExecContext :=
  evs.foldl dispatchExec c

/-- The 30 000 ms timer firing: if still pending, emit the timeout `error`
on the process, which the `once("error")` listener receives. -/
def fireTimeout (c : ExecContext) : ExecContext :=
  if c.timerActive then
    dispatchExec c (TerminalEvent.errSignal (timeoutMessage c.command))
  else c

/-- Statement of the amended C5 claim in the spec's own style: normalize
`\r\n` to `\n`, drop bare `\r`, keep only the newline and the printable
ASCII range `0x20`–`0x7E` (so control characters and every non-ASCII
character, printable Unicode included, are removed), then trim. -/
def sanitizeOutputAmendedSpec (s : List Char) : List Char :=
  jsTrim ((dropCr (crlfToLf s)).filter
    (fun c => c.toNat = 0x0A || (0x20 ≤ c.toNat && c.toNat ≤ 0x7E)))

/-! ## Helper lemmas -/

theorem sanitizeRemainingBuffer_nil : sanitizeRemainingBuffer [] = [] := rfl

theorem not_isStrippedControl (c : Char) :
    (!(isStrippedControl c))
      = (c.toNat = 0x0A || (0x20 ≤ c.toNat && c.toNat ≤ 0x7E)) := by
  rw [Bool.eq_iff_iff]
  simp [isStrippedControl]
  omega

theorem lookupAssoc_setAssoc (l : List (Nat × TerminalProcess)) (id : Nat)
    (p : TerminalProcess) : lookupAssoc (setAssoc l id p) id = some p := by
  induction l with
  | nil => simp [setAssoc, lookupAssoc]
  | cons kv rest ih =>
    obtain ⟨k, v⟩ := kv
    by_cases hk : k = id
    · simp [setAssoc, lookupAssoc, hk]
    · simp [setAssoc, lookupAssoc, hk, ih]

/-! ## C5 -/

/-- C5 as stated is false: `sanitizeOutput` does not preserve printable
Unicode characters — on `"café"` it removes the printable character `é`
(code point `0xE9`, matched by the class `[\x7F-￿]`). -/
theorem sanitizeOutput_unicode_counterexample :
    sanitizeOutput ("café".data) = ("caf".data)
  ∧ sanitizeOutput ("café".data) ≠ ("café".data) := by decide

/-- C5 amended: for every input, `sanitizeOutput` normalizes `\r\n` to `\n`,
drops bare `\r`, keeps only the newline and printable ASCII (stripping
control characters and every non-ASCII character, printable Unicode
included), and trims leading and trailing whitespace. -/
theorem sanitizeOutput_amended (s : List Char) :
    sanitizeOutput s = sanitizeOutputAmendedSpec s := by
  unfold sanitizeOutput sanitizeOutputAmendedSpec stripControl
  congr 1
  exact List.filter_congr (fun c _ => not_isStrippedControl c)

/-! ## C7 -/

/-- C7: `getUnretrievedOutput` returns the sanitized slice of `fullOutput`
from `lastRetrievedIndex` to the end and advances `lastRetrievedIndex` to
the end of the unchanged `fullOutput`; an immediate second call returns the
empty string, and a call made after new output `t` was appended returns
exactly the sanitized `t`, never re-delivering already-retrieved text. -/
theorem getUnretrievedOutput_idempotent (p : TerminalProcess) (t : List Char) :
    (p.getUnretrievedOutput).1
      = sanitizeRemainingBuffer (p.fullOutput.drop p.lastRetrievedIndex)
  ∧ (p.getUnretrievedOutput).2.lastRetrievedIndex = p.fullOutput.length
  ∧ (p.getUnretrievedOutput).2.fullOutput = p.fullOutput
  ∧ ((p.getUnretrievedOutput).2.getUnretrievedOutput).1 = []
  ∧ (TerminalProcess.getUnretrievedOutput
       { (p.getUnretrievedOutput).2 with fullOutput := p.fullOutput ++ t }).1
      = sanitizeRemainingBuffer t := by
  refine ⟨rfl, rfl, rfl, ?_, ?_⟩
  · show sanitizeRemainingBuffer (p.fullOutput.drop p.fullOutput.length) = []
    rw [List.drop_length]
    exact sanitizeRemainingBuffer_nil
  · show sanitizeRemainingBuffer ((p.fullOutput ++ t).drop p.fullOutput.length)
      = sanitizeRemainingBuffer t
    rw [List.drop_left]

/-! ## C9 -/

/-- C9: when a caller is fully caught up and the captured line `"$"` is
processed, `fullOutput` grows by `"$\n"`, yet `getUnretrievedOutput` returns
the empty string (the retrieval-time sanitization drops prompt-only lines)
while still advancing `lastRetrievedIndex` to the new end, so that text is
never delivered later either. -/
theorem getUnretrievedOutput_empty_yet_advances (p : TerminalProcess)
    (now : Nat) (h : p.lastRetrievedIndex = p.fullOutput.length) :
    ((p.processOutput now ("$".data)).1).fullOutput = p.fullOutput ++ ("$\n".data)
  ∧ (((p.processOutput now ("$".data)).1).getUnretrievedOutput).1 = []
  ∧ (((p.processOutput now ("$".data)).1).getUnretrievedOutput).2.lastRetrievedIndex
      = ((p.processOutput now ("$".data)).1).fullOutput.length := by
  have key : (p.processOutput now ("$".data)).1
      = { p with fullOutput := p.fullOutput ++ ("$\n".data),
                 lastActivityTime := now,
                 cooldownTimeout := PROCESS_HOT_TIMEOUT_NORMAL } := by
    unfold TerminalProcess.processOutput
    rw [if_neg (by decide : ¬(jsTrim ("$".data) = []))]
    show ((if sanitizeOutput ("$".data) = [] then p
           else { p with fullOutput := p.fullOutput ++ sanitizeOutput ("$".data) ++ ['\n'] }).updateHotState
            now (isCompilingLine ("$".data))) = _
    rw [if_neg (by decide : ¬(sanitizeOutput ("$".data) = []))]
    rw [(by decide : sanitizeOutput ("$".data) = ("$".data))]
    rw [(by decide : isCompilingLine ("$".data) = false)]
    rw [List.append_assoc]
    rfl
  refine ⟨by rw [key], ?_, ?_⟩
  · rw [key]
    show sanitizeRemainingBuffer
        ((p.fullOutput ++ ("$\n".data)).drop p.lastRetrievedIndex) = []
    rw [h, List.drop_left]
    decide
  · rw [key]
    rfl

/-- Closed witness for `getUnretrievedOutput_empty_yet_advances` at the
freshly constructed process and time 5. -/
theorem getUnretrievedOutput_empty_yet_advances_witness :
    (TerminalProcess.new.lastRetrievedIndex = TerminalProcess.new.fullOutput.length)
  ∧ (((TerminalProcess.new.processOutput 5 ("$".data)).1).fullOutput
       = TerminalProcess.new.fullOutput ++ ("$\n".data)
     ∧ (((TerminalProcess.new.processOutput 5 ("$".data)).1).getUnretrievedOutput).1 = []
     ∧ (((TerminalProcess.new.processOutput 5 ("$".data)).1).getUnretrievedOutput).2.lastRetrievedIndex
         = ((TerminalProcess.new.processOutput 5 ("$".data)).1).fullOutput.length) :=
  ⟨by decide, getUnretrievedOutput_empty_yet_advances TerminalProcess.new 5 (by decide)⟩

/-! ## C10 -/

/-- C10: after `disposeAll`, every query returns its default — both
`getTerminals` lists are empty, `getUnretrievedOutput` is empty for every
id, and `isProcessHot` is false for every id, whatever the registry holds. -/
theorem disposeAll_resets_queries (m : TerminalManager)
    (registry : Nat → Option TerminalInfo) (b : Bool) (id now : Nat) :
    (m.disposeAll).getTerminals registry b = []
  ∧ ((m.disposeAll).getUnretrievedOutput id).1 = []
  ∧ (m.disposeAll).isProcessHot id now = false := by
  refine ⟨rfl, ?_, rfl⟩
  unfold TerminalManager.getUnretrievedOutput TerminalManager.disposeAll
  simp

/-! ## C1 -/

/-- C1 is a code bug: when the 30 000 ms timer fires, the `error` listener
rejects the promise with the timeout message naming the command, but nothing
resets `busy` — only the `completed` event does, and it never fires on this
path — so the session stays `busy = true` after the rejection, contrary to
the claim that it becomes idle. -/
theorem timeout_rejection_leaves_session_busy (m : TerminalManager)
    (info : TerminalInfo) (cmd : List Char) :
    (fireTimeout ((m.runCommand info cmd).2)).settled
        = some (Settlement.rejected (timeoutMessage cmd))
  ∧ (fireTimeout ((m.runCommand info cmd).2)).info.busy = true :=
  ⟨rfl, rfl⟩

/-! ## C6 -/

/-- C6 as stated is false: after a command run on session 1 reaches its
terminal state (the end-marker chunk emits `completed` and `continue`, the
promise is fulfilled and `busy` is cleared), the manager's id-to-process
mapping still contains id 1 — no handler ever deletes the entry. -/
theorem processes_mapping_outlives_settlement_counterexample :
    lookupAssoc ((TerminalManager.runCommand ⟨[], []⟩ ⟨1, false, []⟩
        ("ls".data)).1).processes 1 = some TerminalProcess.new
  ∧ (dispatchEvents ((TerminalManager.runCommand ⟨[], []⟩ ⟨1, false, []⟩
        ("ls".data)).2)
       ((processChunks ansiId 0 ("S".data) ("E".data)
          (RunState.init TerminalProcess.new)
          [("S".data), ("E".data)]).2)).settled = some Settlement.fulfilled
  ∧ (dispatchEvents ((TerminalManager.runCommand ⟨[], []⟩ ⟨1, false, []⟩
        ("ls".data)).2)
       ((processChunks ansiId 0 ("S".data) ("E".data)
          (RunState.init TerminalProcess.new)
          [("S".data), ("E".data)]).2)).completedConsumed = true := by
  decide

/-- C6 amended: `runCommand` puts the session id into the id-to-process
mapping and settlement does not remove it (no event handler touches the
mapping); the mapping is emptied only by `disposeAll`. -/
theorem runCommand_mapping_persists (m : TerminalManager)
    (info : TerminalInfo) (cmd : List Char) (id' : Nat) :
    lookupAssoc ((m.runCommand info cmd).1).processes info.id
        = some TerminalProcess.new
  ∧ lookupAssoc (((m.runCommand info cmd).1).disposeAll).processes id' = none := by
  exact ⟨lookupAssoc_setAssoc m.processes info.id TerminalProcess.new, rfl⟩

/-! ## C4 -/

/-- C4 as stated is false: on a listening process whose in-flight partial
line is `"hello"` and whose `fullOutput` is empty, `continue()` emits the
flushed line as an event but leaves `fullOutput` empty — the partial line is
never accounted for in `fullOutput`. -/
theorem continue_not_in_fullOutput_counterexample :
    (TerminalProcess.contOp ⟨("hello".data), 2000, [], true, 0, 0⟩).2
        = [TerminalEvent.line ("hello".data), TerminalEvent.contSignal]
  ∧ ((TerminalProcess.contOp ⟨("hello".data), 2000, [], true, 0, 0⟩).1).fullOutput
        = [] := by
  decide

/-- C4 amended: on a listening process with a non-empty in-flight partial
line, `continue()` emits the sanitized partial line as a final `line` event
(when the sanitized text is non-empty), clears the buffer, advances
`lastRetrievedIndex` to the end of `fullOutput`, and then detaches and emits
`continue`; `fullOutput` itself is left unchanged — the flushed line is not
appended to it. -/
theorem continue_flushes_buffer_amended (p : TerminalProcess)
    (hl : p.isListening = true) (hb : p.buffer ≠ []) :
    p.contOp
      = ({ p with buffer := [], isListening := false,
                  lastRetrievedIndex := p.fullOutput.length },
         (if (sanitizeRemainingBuffer p.buffer).isEmpty then []
          else [TerminalEvent.line (sanitizeRemainingBuffer p.buffer)])
           ++ [TerminalEvent.contSignal])
  ∧ (p.contOp).1.fullOutput = p.fullOutput := by
  have hbe : p.buffer.isEmpty = false := by
    cases hbuf : p.buffer with
    | nil => exact absurd hbuf hb
    | cons c t => rfl
  unfold TerminalProcess.contOp TerminalProcess.emitRemainingBufferIfListening
  rw [hbe, hl]
  by_cases hs : (sanitizeRemainingBuffer p.buffer).isEmpty
  · simp [hs]
  · simp [hs]

/-- Closed witness for `continue_flushes_buffer_amended` at a listening
process with buffer `"hi"` and `fullOutput` `"old\n"`. -/
theorem continue_flushes_buffer_amended_witness :
    ((⟨("hi".data), 2000, ("old\n".data), true, 0, 0⟩ : TerminalProcess).isListening = true)
  ∧ ((⟨("hi".data), 2000, ("old\n".data), true, 0, 0⟩ : TerminalProcess).buffer ≠ [])
  ∧ ((⟨("hi".data), 2000, ("old\n".data), true, 0, 0⟩ : TerminalProcess).contOp
       = ({ (⟨("hi".data), 2000, ("old\n".data), true, 0, 0⟩ : TerminalProcess) with
            buffer := [], isListening := false,
            lastRetrievedIndex := ("old\n".data).length },
          (if (sanitizeRemainingBuffer ("hi".data)).isEmpty then []
           else [TerminalEvent.line (sanitizeRemainingBuffer ("hi".data))])
            ++ [TerminalEvent.contSignal])
     ∧ ((⟨("hi".data), 2000, ("old\n".data), true, 0, 0⟩ : TerminalProcess).contOp).1.fullOutput
         = ("old\n".data)) :=
  ⟨by decide, by decide,
   continue_flushes_buffer_amended ⟨("hi".data), 2000, ("old\n".data), true, 0, 0⟩
     (by decide) (by decide)⟩

/-! ## C3 -/

/-- C3 as stated is false: a chunk that contains the start marker followed by
the command output `"hello\n"` is discarded wholly — after it and a final
end-marker chunk, `fullOutput` is empty and no `line` event was emitted, so
the output following the marker inside the chunk is lost, not captured. -/
theorem start_marker_chunk_loses_output_counterexample :
    ((processChunks ansiId 0 ("START123".data) ("END456".data)
        (RunState.init TerminalProcess.new)
        [("START123\nhello\n".data), ("END456".data)]).1).proc.fullOutput = []
  ∧ (processChunks ansiId 0 ("START123".data) ("END456".data)
        (RunState.init TerminalProcess.new)
        [("START123\nhello\n".data), ("END456".data)]).2
      = [TerminalEvent.completed, TerminalEvent.contSignal] := by
  decide

/-- C3 amended: on a chunk containing the start marker while capture has not
yet started, the handler transitions to capturing and discards the entire
chunk — including any command output after the marker — leaving the process
state, the buffer, and the emitted events untouched. -/
theorem start_marker_chunk_discarded_amended (ansi : List Char → List Char)
    (now : Nat) (startM endM : List Char) (st : RunState) (data : List Char)
    (hd : st.disposed = false) (_hns : st.outputStarted = false)
    (hs : containsSub (ansi data) startM = true) :
    handleData ansi now startM endM st data
      = ({ st with outputStarted := true }, []) := by
  simp [handleData, hd, hs]

/-- Closed witness for `start_marker_chunk_discarded_amended` on the chunk
`"START123 hello"`. -/
theorem start_marker_chunk_discarded_amended_witness :
    ((RunState.init TerminalProcess.new).disposed = false)
  ∧ ((RunState.init TerminalProcess.new).outputStarted = false)
  ∧ (containsSub (ansiId ("START123 hello".data)) ("START123".data) = true)
  ∧ (handleData ansiId 0 ("START123".data) ("END456".data)
       (RunState.init TerminalProcess.new) ("START123 hello".data)
       = ({ RunState.init TerminalProcess.new with outputStarted := true }, [])) :=
  ⟨by decide, by decide, by decide,
   start_marker_chunk_discarded_amended ansiId 0 ("START123".data) ("END456".data)
     (RunState.init TerminalProcess.new) ("START123 hello".data)
     (by decide) (by decide) (by decide)⟩

/-! ## Chunk-splitting machinery for C2 -/

theorem splitOnNl_ne_nil (s : List Char) : splitOnNl s ≠ [] := by
  cases s with
  | nil => simp [splitOnNl]
  | cons c rest =>
    by_cases hc : c = '\n'
    · simp [splitOnNl, hc]
    · cases hr : splitOnNl rest <;> simp [splitOnNl, hc, hr]

theorem splitOnNl_no_nl (s : List Char) (h : '\n' ∉ s) : splitOnNl s = [s] := by
  induction s with
  | nil => rfl
  | cons c rest ih =>
    have hc : ¬(c = '\n') := fun he => h (he ▸ List.mem_cons_self c rest)
    have hrest : '\n' ∉ rest := fun hr => h (List.mem_cons_of_mem c hr)
    simp [splitOnNl, hc, ih hrest]

theorem splitOnNl_append_nl (a r : List Char) (h : '\n' ∉ a) :
    splitOnNl (a ++ '\n' :: r) = a :: splitOnNl r := by
  induction a with
  | nil => simp [splitOnNl]
  | cons c a' ih =>
    have hc : ¬(c = '\n') := fun he => h (he ▸ List.mem_cons_self c a')
    have ha' : '\n' ∉ a' := fun hr => h (List.mem_cons_of_mem c hr)
    simp [splitOnNl, hc, ih ha']

theorem splitOnNl_length_one (s : List Char)
    (h : (splitOnNl s).length = 1) : splitOnNl s = [s] := by
  induction s with
  | nil => rfl
  | cons c rest ih =>
    by_cases hc : c = '\n'
    · exfalso
      rw [show splitOnNl (c :: rest) = [] :: splitOnNl rest by simp [splitOnNl, hc]]
        at h
      have := splitOnNl_ne_nil rest
      cases hr : splitOnNl rest with
      | nil => exact this hr
      | cons x xs => rw [hr] at h; simp at h
    · cases hr : splitOnNl rest with
      | nil => exact absurd hr (splitOnNl_ne_nil rest)
      | cons x xs =>
        rw [show splitOnNl (c :: rest) = (c :: x) :: xs by simp [splitOnNl, hc, hr]]
          at h ⊢
        simp at h
        subst h
        have hone : (splitOnNl rest).length = 1 := by rw [hr]; rfl
        have hx := ih hone
        rw [hr] at hx
        simp at hx
        rw [hx]

theorem getLastD_cons_indep (l : List (List Char)) (x d d' : List Char) :
    (x :: l).getLastD d = (x :: l).getLastD d' := by
  rw [List.getLastD_cons, List.getLastD_cons]

theorem absorb_eq_split (now : Nat) (w : List Char) :
    ∀ (p : TerminalProcess) (buf : List Char), '\n' ∉ buf →
    absorb now p buf w
      = ((runLines now p ((splitOnNl (buf ++ w)).dropLast)).1,
         (splitOnNl (buf ++ w)).getLastD [],
         (runLines now p ((splitOnNl (buf ++ w)).dropLast)).2) := by
  induction w with
  | nil =>
    intro p buf hb
    rw [List.append_nil, splitOnNl_no_nl buf hb]
    simp [absorb, runLines]
  | cons c rest ih =>
    intro p buf hb
    by_cases hc : c = '\n'
    · subst hc
      rw [splitOnNl_append_nl buf rest hb]
      cases hr : splitOnNl rest with
      | nil => exact absurd hr (splitOnNl_ne_nil rest)
      | cons x xs =>
        have hdrop : (buf :: x :: xs).dropLast = buf :: (x :: xs).dropLast := rfl
        rw [hdrop]
        have hlast : (buf :: x :: xs).getLastD [] = (x :: xs).getLastD [] := by
          rw [List.getLastD_cons, getLastD_cons_indep xs x buf []]
        rw [hlast]
        have ihr := ih (p.processOutput now buf).1 [] (by simp)
        rw [List.nil_append, hr] at ihr
        simp [absorb, runLines, ihr]
    · have hb' : '\n' ∉ buf ++ [c] := by
        intro hmem
        rcases List.mem_append.mp hmem with h1 | h2
        · exact hb h1
        · simp at h2; exact hc h2.symm
      have ihr := ih p (buf ++ [c]) hb'
      rw [List.append_assoc] at ihr
      simp [absorb, hc]
      simpa using ihr

theorem absorb_nil (now : Nat) (p : TerminalProcess) (buf : List Char) :
    absorb now p buf [] = (p, buf, []) := rfl

theorem absorb_cons_nl (now : Nat) (p : TerminalProcess) (buf rest : List Char) :
    absorb now p buf ('\n' :: rest)
      = ((absorb now (p.processOutput now buf).1 [] rest).1,
         (absorb now (p.processOutput now buf).1 [] rest).2.1,
         (p.processOutput now buf).2
           ++ (absorb now (p.processOutput now buf).1 [] rest).2.2) := rfl

theorem absorb_cons_other (now : Nat) (p : TerminalProcess) (buf rest : List Char)
    (c : Char) (hc : c ≠ '\n') :
    absorb now p buf (c :: rest) = absorb now p (buf ++ [c]) rest := by
  simp [absorb, hc]

theorem absorb_append (now : Nat) (t1 t2 : List Char) :
    ∀ (p : TerminalProcess) (buf : List Char),
    absorb now p buf (t1 ++ t2)
      = ((absorb now (absorb now p buf t1).1 ((absorb now p buf t1).2.1) t2).1,
         (absorb now (absorb now p buf t1).1 ((absorb now p buf t1).2.1) t2).2.1,
         (absorb now p buf t1).2.2
           ++ (absorb now (absorb now p buf t1).1 ((absorb now p buf t1).2.1) t2).2.2) := by
  induction t1 with
  | nil => intro p buf; simp [absorb_nil]
  | cons c rest ih =>
    intro p buf
    by_cases hc : c = '\n'
    · subst hc
      rw [List.cons_append, absorb_cons_nl now p buf (rest ++ t2),
          absorb_cons_nl now p buf rest]
      rw [ih (p.processOutput now buf).1 []]
      simp [List.append_assoc]
    · rw [List.cons_append, absorb_cons_other now p buf (rest ++ t2) c hc,
          absorb_cons_other now p buf rest c hc]
      exact ih p (buf ++ [c])

theorem absorb_keeps_no_nl (now : Nat) (w : List Char) :
    ∀ (p : TerminalProcess) (buf : List Char), '\n' ∉ buf →
    '\n' ∉ (absorb now p buf w).2.1 := by
  induction w with
  | nil => intro p buf h; simpa [absorb] using h
  | cons c rest ih =>
    intro p buf h
    by_cases hc : c = '\n'
    · subst hc
      simp only [absorb, if_pos rfl]
      exact ih (p.processOutput now buf).1 [] (by simp)
    · simp only [absorb, if_neg hc]
      refine ih p (buf ++ [c]) ?_
      intro hmem
      rcases List.mem_append.mp hmem with h1 | h2
      · exact h h1
      · simp at h2; exact hc h2.symm

theorem processChunks_cons (ansi : List Char → List Char) (now : Nat)
    (startM endM : List Char) (st : RunState) (c : List Char)
    (cs : List (List Char)) :
    processChunks ansi now startM endM st (c :: cs)
      = ((processChunks ansi now startM endM
            (handleData ansi now startM endM st c).1 cs).1,
         (handleData ansi now startM endM st c).2
           ++ (processChunks ansi now startM endM
                 (handleData ansi now startM endM st c).1 cs).2) := rfl

theorem handleData_good (ansi : List Char → List Char) (now : Nat)
    (startM endM : List Char) (st : RunState) (c : List Char)
    (ha : ansi c = c) (hs : containsSub c startM = false)
    (he : containsSub c endM = false) (hstart : st.outputStarted = true)
    (hd : st.disposed = false) (hb : '\n' ∉ st.outputBuffer) :
    handleData ansi now startM endM st c
      = ({ st with proc := (absorb now st.proc st.outputBuffer c).1,
                   outputBuffer := (absorb now st.proc st.outputBuffer c).2.1 },
         (absorb now st.proc st.outputBuffer c).2.2) := by
  rw [absorb_eq_split now c st.proc st.outputBuffer hb]
  by_cases hlen : (splitOnNl (st.outputBuffer ++ c)).length > 1
  · simp [handleData, ha, hs, he, hstart, hd, hlen]
  · have hpos : 0 < (splitOnNl (st.outputBuffer ++ c)).length :=
      List.length_pos.mpr (splitOnNl_ne_nil (st.outputBuffer ++ c))
    have h1 : (splitOnNl (st.outputBuffer ++ c)).length = 1 := by omega
    have heq := splitOnNl_length_one _ h1
    simp [handleData, ha, hs, he, hstart, hd, hlen, heq, runLines]

theorem processChunks_good (ansi : List Char → List Char) (now : Nat)
    (startM endM : List Char) :
    ∀ (cs : List (List Char)) (st : RunState),
    (∀ c ∈ cs, ansi c = c ∧ containsSub c startM = false
       ∧ containsSub c endM = false) →
    st.outputStarted = true → st.disposed = false → '\n' ∉ st.outputBuffer →
    processChunks ansi now startM endM st cs
      = ({ st with proc := (absorb now st.proc st.outputBuffer cs.flatten).1,
                   outputBuffer := (absorb now st.proc st.outputBuffer cs.flatten).2.1 },
         (absorb now st.proc st.outputBuffer cs.flatten).2.2) := by
  intro cs
  induction cs with
  | nil =>
    intro st h hstart hd hb
    simp [processChunks, absorb_nil]
  | cons c cs' ih =>
    intro st h hstart hd hb
    have hc := h c (List.mem_cons_self c cs')
    have hrest : ∀ x ∈ cs', ansi x = x ∧ containsSub x startM = false
        ∧ containsSub x endM = false :=
      fun x hx => h x (List.mem_cons_of_mem c hx)
    have hstep := handleData_good ansi now startM endM st c hc.1 hc.2.1 hc.2.2
      hstart hd hb
    have hb1 : '\n' ∉ (absorb now st.proc st.outputBuffer c).2.1 :=
      absorb_keeps_no_nl now c st.proc st.outputBuffer hb
    rcases hA : absorb now st.proc st.outputBuffer c with ⟨p1, b1, e1⟩
    rw [hA] at hstep hb1
    simp only [] at hstep hb1
    have ih1 := ih ({ st with proc := p1, outputBuffer := b1 }) hrest hstart hd hb1
    rw [processChunks_cons, hstep]
    simp only []
    rw [ih1]
    simp only []
    rw [List.flatten_cons, absorb_append now c cs'.flatten st.proc st.outputBuffer,
        hA]

/-! ## C2 -/

/-- C2 as stated is false: the same captured text `"hello\nE"` (where `"E"`
is the end marker) delivered as the two chunks `"hello\n"`, `"E"` emits a
`line "hello"` event before `completed`, while delivered as the single chunk
`"hello\nE"` it emits no `line` event at all — chunk boundaries do alter the
emitted line events. -/
theorem chunk_splitting_counterexample :
    ("hello\n".data) ++ ("E".data) = ("hello\nE".data)
  ∧ (processChunks ansiId 0 ("S".data) ("E".data)
       ⟨TerminalProcess.new, true, [], false⟩ [("hello\n".data), ("E".data)]).2
      ≠ (processChunks ansiId 0 ("S".data) ("E".data)
           ⟨TerminalProcess.new, true, [], false⟩ [("hello\nE".data)]).2 := by
  decide

/-- C2 amended: the emitted events (and the reached state) are invariant
under re-chunking only for deliveries between the marker chunks — if two
chunk sequences concatenate to the same text, contain neither marker in any
chunk, and are untouched by ANSI stripping, then processing them from the
same capturing state is identical.  (The counterexample shows the invariance
fails as soon as a marker shares a chunk with output text.) -/
theorem chunk_splitting_invariant_amended (ansi : List Char → List Char)
    (now : Nat) (startM endM : List Char) (st : RunState)
    (cs1 cs2 : List (List Char))
    (h1 : ∀ c ∈ cs1, ansi c = c ∧ containsSub c startM = false
       ∧ containsSub c endM = false)
    (h2 : ∀ c ∈ cs2, ansi c = c ∧ containsSub c startM = false
       ∧ containsSub c endM = false)
    (hflat : cs1.flatten = cs2.flatten)
    (hstart : st.outputStarted = true) (hd : st.disposed = false)
    (hb : '\n' ∉ st.outputBuffer) :
    processChunks ansi now startM endM st cs1
      = processChunks ansi now startM endM st cs2 := by
  rw [processChunks_good ansi now startM endM cs1 st h1 hstart hd hb,
      processChunks_good ansi now startM endM cs2 st h2 hstart hd hb, hflat]

/-- Closed witness for `chunk_splitting_invariant_amended`: `"abc\nd"` split
as `"ab"`, `"c\nd"` versus `"abc\n"`, `"d"`. -/
theorem chunk_splitting_invariant_amended_witness :
    (∀ c ∈ [("ab".data), ("c\nd".data)], ansiId c = c
       ∧ containsSub c ("S".data) = false ∧ containsSub c ("E".data) = false)
  ∧ (∀ c ∈ [("abc\n".data), ("d".data)], ansiId c = c
       ∧ containsSub c ("S".data) = false ∧ containsSub c ("E".data) = false)
  ∧ ([("ab".data), ("c\nd".data)].flatten = [("abc\n".data), ("d".data)].flatten)
  ∧ ((⟨TerminalProcess.new, true, [], false⟩ : RunState).outputStarted = true)
  ∧ ((⟨TerminalProcess.new, true, [], false⟩ : RunState).disposed = false)
  ∧ ('\n' ∉ (⟨TerminalProcess.new, true, [], false⟩ : RunState).outputBuffer)
  ∧ processChunks ansiId 0 ("S".data) ("E".data)
      ⟨TerminalProcess.new, true, [], false⟩ [("ab".data), ("c\nd".data)]
      = processChunks ansiId 0 ("S".data) ("E".data)
          ⟨TerminalProcess.new, true, [], false⟩ [("abc\n".data), ("d".data)] :=
  ⟨by decide, by decide, by decide, by decide, by decide, by decide,
   chunk_splitting_invariant_amended ansiId 0 ("S".data) ("E".data)
     ⟨TerminalProcess.new, true, [], false⟩
     [("ab".data), ("c\nd".data)] [("abc\n".data), ("d".data)]
     (by decide) (by decide) (by decide) (by decide) (by decide) (by decide)⟩

/-! ## C8 -/

/-- C8: on a chunk containing the end marker (and not the start marker), the
handler's result does not depend on the chunk's own text at all — any output
text in the chunk before the marker is discarded, never reaching
`fullOutput` and emitting no `line` event; only the partial line buffered
from earlier chunks is processed, followed by the `completed` and `continue`
signals. -/
theorem end_marker_chunk_discards_chunk_text (ansi : List Char → List Char)
    (now : Nat) (startM endM : List Char) (st : RunState)
    (data data' : List Char) (hd : st.disposed = false)
    (hs : containsSub (ansi data) startM = false)
    (he : containsSub (ansi data) endM = true)
    (hs' : containsSub (ansi data') startM = false)
    (he' : containsSub (ansi data') endM = true) :
    handleData ansi now startM endM st data
      = handleData ansi now startM endM st data'
  ∧ (handleData ansi now startM endM st data).2
      = (if st.outputBuffer.isEmpty then ([] : List TerminalEvent)
         else (st.proc.processOutput now st.outputBuffer).2)
        ++ [TerminalEvent.completed, TerminalEvent.contSignal]
  ∧ ((handleData ansi now startM endM st data).1).proc.fullOutput
      = (if st.outputBuffer.isEmpty then st.proc.fullOutput
         else ((st.proc.processOutput now st.outputBuffer).1).fullOutput) := by
  by_cases hbuf : st.outputBuffer.isEmpty
  · refine ⟨?_, ?_, ?_⟩ <;> simp [handleData, hd, hs, he, hs', he', hbuf]
  · refine ⟨?_, ?_, ?_⟩ <;> simp [handleData, hd, hs, he, hs', he', hbuf]

/-- Closed witness for `end_marker_chunk_discards_chunk_text`: buffered
partial line `"abc"`, end-marker chunks `"xyzE"` and `"E"`. -/
theorem end_marker_chunk_discards_chunk_text_witness :
    ((⟨TerminalProcess.new, true, ("abc".data), false⟩ : RunState).disposed = false)
  ∧ (containsSub (ansiId ("xyzE".data)) ("S".data) = false)
  ∧ (containsSub (ansiId ("xyzE".data)) ("E".data) = true)
  ∧ (containsSub (ansiId ("E".data)) ("S".data) = false)
  ∧ (containsSub (ansiId ("E".data)) ("E".data) = true)
  ∧ (handleData ansiId 7 ("S".data) ("E".data)
       ⟨TerminalProcess.new, true, ("abc".data), false⟩ ("xyzE".data)
       = handleData ansiId 7 ("S".data) ("E".data)
           ⟨TerminalProcess.new, true, ("abc".data), false⟩ ("E".data)
     ∧ (handleData ansiId 7 ("S".data) ("E".data)
          ⟨TerminalProcess.new, true, ("abc".data), false⟩ ("xyzE".data)).2
         = (if (("abc".data) : List Char).isEmpty then ([] : List TerminalEvent)
            else (TerminalProcess.new.processOutput 7 ("abc".data)).2)
           ++ [TerminalEvent.completed, TerminalEvent.contSignal]
     ∧ ((handleData ansiId 7 ("S".data) ("E".data)
           ⟨TerminalProcess.new, true, ("abc".data), false⟩ ("xyzE".data)).1).proc.fullOutput
         = (if (("abc".data) : List Char).isEmpty then TerminalProcess.new.fullOutput
            else ((TerminalProcess.new.processOutput 7 ("abc".data)).1).fullOutput)) :=
  ⟨by decide, by decide, by decide, by decide, by decide,
   end_marker_chunk_discards_chunk_text ansiId 7 ("S".data) ("E".data)
     ⟨TerminalProcess.new, true, ("abc".data), false⟩ ("xyzE".data) ("E".data)
     (by decide) (by decide) (by decide) (by decide) (by decide)⟩
